import Mathlib

/-!
# Verification of the full-duplex audio pipeline

Shallow embedding of the audio communication pipeline of the
Facebook-Denoiser-in-Raspberry-Pi-5 repository:

* `src/communication/codec.py` — `OpusCodec.encode` / `OpusCodec.decode`;
* `demo/duplex_public_wifi/core/audio_comm.py` — `AudioComm.send`,
  `AudioComm.receive`, `AudioComm.downsample_48k_to_16k`,
  `AudioComm.upsample_16k_to_48k`;
* `demo/duplex/rp5_full_duplex_modular.py` — the send / receive thread loop
  bodies, the mic-callback enqueue, the processor toggle, and the processor
  initialisation in `main`;
* `demo/duplex/processors/ai_denoiser.py` — `AIDenoiserProcessor.process`;
* `demo/duplex/archive/v2_baseline/processors/bypass.py` —
  `BypassProcessor.process`.

Audio samples are modelled as rationals (`ℚ`); numpy float32 constants such
as `1e-6`, `1e-8`, `32767` and `1.05` appear as exact rationals.  External
library calls (the opus encoder/decoder, the scipy polyphase resampler and
the torch network) are parameters of the embedded functions: an `Option`
result when the library call can raise, a plain function when it cannot.
Encoded packets are byte lists (`List ℕ`).
-/

namespace Duplex

/-- A mono audio frame: a sequence of (float32) samples, modelled as `ℚ`. -/
abbrev AudioFrame := List ℚ

/-- An encoded packet: an opaque byte buffer. -/
abbrev Packet := List ℕ

/-- `np.abs(xs).max()` — peak absolute sample of a frame.  On an empty array
numpy raises, so theorems about code paths that evaluate the peak carry a
nonemptiness hypothesis; on nonempty frames this fold computes the exact
maximum of the absolute values. -/
def peakAbs (xs : AudioFrame) : ℚ :=
  (xs.map (fun x => |x|)).foldr max 0

/-- `np.clip(x, -1.0, 1.0)` on a single sample. -/
def clip1 (x : ℚ) : ℚ := max (-1) (min 1 x)

/-- Truncation toward zero, as numpy `astype` of a float to an integer type. -/
def truncQ (q : ℚ) : ℤ := if 0 ≤ q then ⌊q⌋ else ⌈q⌉

/-- Wrap an integer into the int16 range, as numpy `astype(np.int16)`. -/
def toInt16 (z : ℤ) : ℤ := (z + 32768) % 65536 - 32768

/-!
## Codec (`src/communication/codec.py`)
-/

/-- Configuration of `OpusCodec.__init__`: sample rate, channels, bitrate
and frame duration in milliseconds. -/
structure OpusCodec where
  sample_rate : ℕ
  channels : ℕ
  bitrate : ℕ
  frame_duration : ℕ
deriving DecidableEq

/-- `self.frame_size = int(sample_rate * frame_duration / 1000)`. -/
def OpusCodec.frame_size (c : OpusCodec) : ℕ :=
  c.sample_rate * c.frame_duration / 1000

/-- The codec instance built by `AudioComm.__init__`:
`OpusCodec(sample_rate=16000, channels=1, bitrate=16000, frame_duration=20)`. -/
def commCodec : OpusCodec :=
  { sample_rate := 16000, channels := 1, bitrate := 16000, frame_duration := 20 }

/-- `pcm = (audio * 32767).astype(np.int16)` in `OpusCodec.encode`. -/
def pcm16 (audio : AudioFrame) : List ℤ :=
  audio.map (fun x => toInt16 (truncQ (x * 32767)))

/-- Embeds `OpusCodec.encode`.  `enc` stands for the external
`opuslib` encoder call on the int16 PCM buffer: `some bytes` when the
library returns a packet, `none` when it raises.  The `try/except` in the
source catches the raise and returns the empty byte string `b''`. -/
def OpusCodec.encode (enc : List ℤ → Option Packet) (audio : AudioFrame) :
    Packet :=
  match enc (pcm16 audio) with
  | some bs => bs
  | none => []

/-- Embeds `OpusCodec.decode`.  `dec` stands for the external `opuslib`
decoder call: `some pcm` (an int16 sample list) when decoding succeeds,
`none` when the library raises on a malformed/truncated packet.  On success
the int16 samples are converted to float by division by `32767.0`; on
failure the `except` branch returns `np.zeros(self.frame_size)`. -/
def OpusCodec.decode (c : OpusCodec) (dec : Packet → Option (List ℤ))
    (packet : Packet) : AudioFrame :=
  match dec packet with
  | some pcm => pcm.map (fun z => (z : ℚ) / 32767)
  | none => List.replicate c.frame_size 0

/-!
## Transport (`demo/duplex_public_wifi/core/audio_comm.py`)
-/

/-- Outcome of one `recvfrom` poll on the receive socket:
a datagram arrives, the 0.1 s timeout fires, or the socket raises. -/
inductive RecvEvent where
  | datagram (data : Packet)
  | timeout
  | socketError
deriving DecidableEq

/-- Embeds `AudioComm.receive`.  On a datagram the packet is decoded with
`commCodec` (whose `decode` never raises); on `socket.timeout` and on any
other exception the `except` branches return `np.zeros(320)`. -/
def AudioComm.receive (dec : Packet → Option (List ℤ)) (ev : RecvEvent) :
    AudioFrame :=
  match ev with
  | RecvEvent.datagram data => commCodec.decode dec data
  | RecvEvent.timeout => List.replicate 320 0
  | RecvEvent.socketError => List.replicate 320 0

/-- Embeds `AudioComm.send`.  `enc` is the external encoder call inside
`OpusCodec.encode`; `sendtoOk` records whether the `sendto` system call
succeeds (its exception is caught and turned into `False`).  The first
component lists the datagrams actually handed to `sendto` on the wire, the
second is the boolean return value. -/
def AudioComm.send (enc : List ℤ → Option Packet) (sendtoOk : Bool)
    (audio_16k : AudioFrame) : List Packet × Bool :=
  let packet := OpusCodec.encode enc audio_16k
  if sendtoOk then ([packet], true) else ([], false)

/-- Output length of `scipy.signal.resample_poly(x, up, down)`:
`ceil(len(x) * up / down)`, computed as in scipy. -/
def resamplePolyLen (n up down : ℕ) : ℕ :=
  (n * up + down - 1) / down

/-- Embeds `AudioComm.downsample_48k_to_16k`.  `rp` stands for the external
`scipy.signal.resample_poly(audio, 1, 3)` call (frames are already 1-D after
`flatten`, modelled directly as lists).  Gain compensation rescales the
output toward the input peak, with the gain clipped to `[0.5, 2.0]`. -/
def downsample_48k_to_16k (rp : AudioFrame → AudioFrame)
    (audio_48k : AudioFrame) : AudioFrame :=
  let input_level := peakAbs audio_48k
  let audio_16k := rp audio_48k
  let output_level := peakAbs audio_16k
  if output_level > 1/1000000 ∧ input_level > 1/1000000 then
    let gain := input_level / (output_level + 1/100000000)
    let gain := max (1/2) (min 2 gain)
    audio_16k.map (fun x => x * gain)
  else
    audio_16k

/-- Embeds `AudioComm.upsample_16k_to_48k`.  `rp3` stands for the external
`scipy.signal.resample_poly(audio, 3, 1)` call; the result is returned
as-is (the `astype` cast does not change values in the model). -/
def upsample_16k_to_48k (rp3 : AudioFrame → AudioFrame)
    (audio_16k : AudioFrame) : AudioFrame :=
  rp3 audio_16k

/-- Output length of the spec's formula `round(input_length * ratio)`,
with Python 3 `round` (round half to even) on an exact rational. -/
def pythonRound (q : ℚ) : ℤ :=
  let f := ⌊q⌋
  if q - f < 1/2 then f
  else if 1/2 < q - f then f + 1
  else if f % 2 = 0 then f else f + 1

/-!
## Processors
-/

/-- A pluggable processor's `process` method.  Python `process` may raise,
so its result is an `Option`: `some frame` is a normal return, `none` is an
uncaught exception escaping `process`. -/
abbrev ProcessFn := AudioFrame → Option AudioFrame

/-- Embeds `BypassProcessor.process`
(`demo/duplex/archive/v2_baseline/processors/bypass.py`): `return audio`. -/
def BypassProcessor.process (audio : AudioFrame) : AudioFrame := audio

/-- Input-normalization block of `AIDenoiserProcessor.process`:
when `input_peak > 1e-6`, divide by `input_peak + 1e-8` and
`np.clip(-1.0, 1.0)`; otherwise pass the audio through. -/
def normalizeInput (audio : AudioFrame) : AudioFrame :=
  if peakAbs audio > 1/1000000 then
    (audio.map (fun x => x / (peakAbs audio + 1/100000000))).map clip1
  else audio

/-- Output-normalization block of `AIDenoiserProcessor.process`:
when `output_peak > 1.0`, scale down by `output_peak + 1e-8` and
`np.clip(-1.0, 1.0)`; otherwise pass the output through. -/
def normalizeOutput (output : AudioFrame) : AudioFrame :=
  if peakAbs output > 1 then
    (output.map (fun x => x / (peakAbs output + 1/100000000))).map clip1
  else output

/-- Input-level-restoration block of `AIDenoiserProcessor.process`:
when `input_peak > 1e-6`, multiply by `min(input_peak * 1.05, 1.0)`. -/
def restoreLevel (input_peak : ℚ) (output : AudioFrame) : AudioFrame :=
  if input_peak > 1/1000000 then
    output.map (fun x => x * min (input_peak * (21/20)) 1)
  else output

/-- Embeds the sample-value pipeline of `AIDenoiserProcessor.process`
(`demo/duplex/processors/ai_denoiser.py`): input normalization, the
denoiser network, output normalization, input-level restoration.  `net`
stands for the external JIT-traced network (the pre-allocated input tensor
is zero-padded and then sliced back to the input length, so the network
always sees exactly `audio_normalized`; the output buffer copy preserves
values).  Timing, RTF statistics and logging do not affect the returned
samples and are omitted. -/
def AIDenoiserProcessor.process (net : AudioFrame → AudioFrame)
    (audio : AudioFrame) : AudioFrame :=
  restoreLevel (peakAbs audio) (normalizeOutput (net (normalizeInput audio)))

/-!
## Bounded queues and callbacks (`rp5_full_duplex_modular.py`)
-/

/-- A bounded FIFO frame queue (`queue.Queue(maxsize=cap)`), head = oldest. -/
abbrev BQueue := List AudioFrame

/-- Embeds `put(frame, block=False)` with the surrounding
`except queue.Full: pass`, as in `mic_callback` and `recv_thread`:
a non-blocking enqueue that appends when the queue holds fewer than `cap`
frames and rejects (drops) the newly offered frame when it is full.
Requires `0 < cap`: Python `queue.Queue` treats `maxsize <= 0` as
unbounded, which this model does not cover. -/
def enqueueDrop (cap : ℕ) (q : BQueue) (x : AudioFrame) : BQueue :=
  if q.length < cap then q ++ [x] else q

/-!
## Pipeline thread bodies (`rp5_full_duplex_modular.py`)
-/

/-- Embeds the body of one `send_thread` loop iteration after a successful
dequeue of `audio_48k`: downsample to 16 kHz, then `self.comm.send` (which
encodes and transmits).  The processor stage present in the spec's pipeline
is commented out in the source; the raw downsampled audio is sent.
Returns `AudioComm.send`'s result: the datagrams put on the wire and the
boolean success flag. -/
def send_iteration (rp : AudioFrame → AudioFrame)
    (enc : List ℤ → Option Packet) (sendtoOk : Bool)
    (audio_48k : AudioFrame) : List Packet × Bool :=
  AudioComm.send enc sendtoOk (downsample_48k_to_16k rp audio_48k)

/-- The send pipeline as the spec states it
(`dequeue → downsample → Processor.process → Codec.encode → Transport.send`),
written from the spec's words for comparison with `send_iteration`. -/
def spec_send_iteration (rp : AudioFrame → AudioFrame)
    (proc : AudioFrame → AudioFrame) (enc : List ℤ → Option Packet)
    (sendtoOk : Bool) (audio_48k : AudioFrame) : List Packet × Bool :=
  AudioComm.send enc sendtoOk (proc (downsample_48k_to_16k rp audio_48k))

/-- Embeds the body of one `recv_thread` loop iteration operating on the
frame `received` returned by `comm.receive()`: when `current_idx > 0` the
current processor is applied (an out-of-range index or a raise inside
`process` is caught by the loop's `except Exception`, dropping the frame),
then the frame is upsampled and enqueued with `put(block=False)` (a full
queue is caught by `except queue.Full: pass`).  Result: the updated
playback queue and whether a frame was handed to the enqueue. -/
def recv_iteration (cap : ℕ) (rp3 : AudioFrame → AudioFrame)
    (processors : List ProcessFn) (current_idx : ℕ)
    (received : AudioFrame) (recvq : BQueue) : BQueue × Bool :=
  if current_idx > 0 then
    match processors.get? current_idx with
    | none => (recvq, false)
    | some p =>
      match p received with
      | none => (recvq, false)
      | some audio_16k =>
          (enqueueDrop cap recvq (upsample_16k_to_48k rp3 audio_16k), true)
  else
    (enqueueDrop cap recvq (upsample_16k_to_48k rp3 received), true)

/-- The receive pipeline as the spec states it
(`Transport.receive → Codec.decode → upsample → PlaybackQueue`, with no
Processor stage), written from the spec's words for comparison with
`recv_iteration`. -/
def spec_recv_iteration (cap : ℕ) (rp3 : AudioFrame → AudioFrame)
    (received : AudioFrame) (recvq : BQueue) : BQueue × Bool :=
  (enqueueDrop cap recvq (upsample_16k_to_48k rp3 received), true)

/-- Embeds the processor toggle in `toggle_thread`:
`self.current_idx = (self.current_idx + 1) % len(self.processors)`. -/
def toggle (numProcessors : ℕ) (idx : ℕ) : ℕ :=
  (idx + 1) % numProcessors

/-!
## Startup (`main` of `rp5_full_duplex_modular.py`)
-/

/-- Names of the processor variants `main` can install. -/
inductive ProcName where
  | bypass
  | aiDenoiser
  | classical
deriving DecidableEq

/-- Embeds the processor-initialisation block of `main`:
Bypass is always appended; when `enable_ai` is set, `AIDenoiserProcessor`
construction (`aiLoad = some aiDenoiser` on success, `none` when it raises)
is wrapped in `try/except` — on failure a warning is printed and execution
continues; when `enable_classical` is set, the classical filters are
appended.  `Except.error` would model an abort of startup; no branch
produces one. -/
def initProcessors (enable_ai : Bool) (aiLoad : Option ProcName)
    (enable_classical : Bool) : Except String (List ProcName) :=
  let ps : List ProcName := [ProcName.bypass]
  let ps :=
    if enable_ai then
      match aiLoad with
      | some p => ps ++ [p]
      | none => ps
    else ps
  let ps := if enable_classical then ps ++ [ProcName.classical] else ps
  Except.ok ps

/-!
## Helper lemmas
-/

theorem peakAbs_nonneg (xs : AudioFrame) : 0 ≤ peakAbs xs := by
  induction xs with
  | nil => simp [peakAbs]
  | cons a xs ih =>
      simp only [peakAbs, List.map_cons, List.foldr_cons] at ih ⊢
      exact le_trans ih (le_max_right _ _)

theorem abs_le_peakAbs {x : ℚ} {xs : AudioFrame} (hx : x ∈ xs) :
    |x| ≤ peakAbs xs := by
  induction xs with
  | nil => cases hx
  | cons a xs ih =>
      simp only [peakAbs, List.map_cons, List.foldr_cons]
      rcases List.mem_cons.mp hx with h | h
      · exact h ▸ le_max_left _ _
      · exact le_trans (ih h) (le_max_right _ _)

theorem clip1_bounds (x : ℚ) : -1 ≤ clip1 x ∧ clip1 x ≤ 1 :=
  ⟨le_max_left _ _, max_le (by norm_num) (min_le_left _ _)⟩

theorem abs_clip1_le_one (x : ℚ) : |clip1 x| ≤ 1 :=
  abs_le.mpr (clip1_bounds x)

theorem mem_normalizeOutput_abs_le_one {z : ℚ} {zs : AudioFrame}
    (hz : z ∈ normalizeOutput zs) : |z| ≤ 1 := by
  unfold normalizeOutput at hz
  by_cases h : peakAbs zs > 1
  · rw [if_pos h] at hz
    rcases List.mem_map.mp hz with ⟨w, _, rfl⟩
    exact abs_clip1_le_one w
  · rw [if_neg h] at hz
    exact le_trans (abs_le_peakAbs hz) (not_lt.mp h)

theorem mem_restoreLevel_abs_le_one {z : ℚ} {p : ℚ} {out : AudioFrame}
    (hp : 0 ≤ p) (hout : ∀ w ∈ out, |w| ≤ 1) (hz : z ∈ restoreLevel p out) :
    |z| ≤ 1 := by
  unfold restoreLevel at hz
  by_cases h : p > 1/1000000
  · rw [if_pos h] at hz
    rcases List.mem_map.mp hz with ⟨w, hw, rfl⟩
    have hc0 : 0 ≤ min (p * (21/20)) 1 :=
      le_min (mul_nonneg hp (by norm_num)) (by norm_num)
    have hc1 : min (p * (21/20)) 1 ≤ 1 := min_le_right _ _
    calc |w * min (p * (21/20)) 1| = |w| * |min (p * (21/20)) 1| :=
          abs_mul _ _
      _ = |w| * min (p * (21/20)) 1 := by rw [abs_of_nonneg hc0]
      _ ≤ 1 * 1 :=
          mul_le_mul (hout w hw) hc1 hc0 (by norm_num)
      _ = 1 := by norm_num
  · rw [if_neg h] at hz
    exact hout z hz

theorem enqueueDrop_length_le {cap : ℕ} {q : BQueue} (x : AudioFrame)
    (hq : q.length ≤ cap) : (enqueueDrop cap q x).length ≤ cap := by
  unfold enqueueDrop
  by_cases h : q.length < cap
  · rw [if_pos h]; simpa using h
  · rw [if_neg h]; exact hq

theorem foldl_enqueueDrop_length_le {cap : ℕ} (offers : List AudioFrame)
    (q : BQueue) (hq : q.length ≤ cap) :
    (offers.foldl (enqueueDrop cap) q).length ≤ cap := by
  induction offers generalizing q with
  | nil => simpa using hq
  | cons x offers ih =>
      simpa using ih (enqueueDrop cap q x) (enqueueDrop_length_le x hq)

theorem pythonRound_intCast (n : ℤ) : pythonRound (n : ℚ) = n := by
  simp [pythonRound]

/-!
## Claim theorems
-/

/-- C1: `AudioComm.receive` never raises.  The communication codec's frame
size is 320 samples; on socket timeout, on any other socket exception, and
on decode failure of a malformed/truncated packet it returns the
full-length all-zero silent frame `replicate 320 0`; and when a datagram
arrives and decodes, it returns the decoded frame. -/
theorem receive_total_silent_fallback :
    commCodec.frame_size = 320 ∧
    (∀ dec : Packet → Option (List ℤ),
      AudioComm.receive dec RecvEvent.timeout = List.replicate 320 (0:ℚ) ∧
      AudioComm.receive dec RecvEvent.socketError =
        List.replicate 320 (0:ℚ)) ∧
    (∀ (dec : Packet → Option (List ℤ)) (data : Packet), dec data = none →
      AudioComm.receive dec (RecvEvent.datagram data) =
        List.replicate 320 (0:ℚ)) ∧
    (∀ (dec : Packet → Option (List ℤ)) (data : Packet) (pcm : List ℤ),
      dec data = some pcm →
      AudioComm.receive dec (RecvEvent.datagram data) =
        pcm.map (fun z => (z : ℚ) / 32767)) := by
  refine ⟨rfl, fun dec => ⟨rfl, rfl⟩, ?_, ?_⟩
  · intro dec data h
    simp [AudioComm.receive, OpusCodec.decode, h, commCodec,
      OpusCodec.frame_size]
  · intro dec data pcm h
    simp [AudioComm.receive, OpusCodec.decode, h]

/-- Witness for C1: a malformed datagram (its decode fails) yields the
320-sample silent frame. -/
theorem receive_total_silent_fallback_witness :
    AudioComm.receive (fun _ => none) (RecvEvent.datagram [7]) =
      List.replicate 320 (0:ℚ) :=
  receive_total_silent_fallback.2.2.1 (fun _ => none) [7] rfl

/-- C3 as stated is false: on encode failure `OpusCodec.encode` does
return the empty packet, but `AudioComm.send` still hands it to `sendto` —
the wire trace is `[[]]` (one empty datagram transmitted), not `[]`. -/
theorem send_transmits_empty_packet_counterexample :
    OpusCodec.encode (fun _ => none) (List.replicate 320 (0:ℚ)) =
      ([] : Packet) ∧
    (AudioComm.send (fun _ => none) true (List.replicate 320 (0:ℚ))).1 =
      [([] : Packet)] ∧
    [([] : Packet)] ≠ ([] : List Packet) :=
  ⟨rfl, rfl, by simp⟩

/-- C3 amended: when the opus encoder call fails, `OpusCodec.encode`
returns an empty (zero-length) packet and the failure is not fatal, but the
sending side transmits that empty packet on the wire anyway (one empty
datagram is handed to `sendto`) and reports success. -/
theorem encode_failure_empty_packet_sent (enc : List ℤ → Option Packet)
    (audio : AudioFrame) (h : enc (pcm16 audio) = none) :
    OpusCodec.encode enc audio = ([] : Packet) ∧
    AudioComm.send enc true audio = ([[]], true) := by
  have he : OpusCodec.encode enc audio = ([] : Packet) := by
    simp [OpusCodec.encode, h]
  exact ⟨he, by simp [AudioComm.send, he]⟩

/-- Witness for the amended C3 at a concrete frame and failing encoder. -/
theorem encode_failure_empty_packet_sent_witness :
    OpusCodec.encode (fun _ => none) [(0:ℚ)] = ([] : Packet) ∧
    AudioComm.send (fun _ => none) true [(0:ℚ)] = ([[]], true) :=
  encode_failure_empty_packet_sent (fun _ => none) [(0:ℚ)] rfl

/-- C5 as stated is false: with `enable_ai` set and the AI-denoiser
construction raising, `main`'s processor initialisation returns normally
with only the Bypass processor — startup continues with the processor
silently substituted away, rather than aborting with an error. -/
theorem ai_load_failure_not_fatal_counterexample :
    initProcessors true none false = Except.ok [ProcName.bypass] := rfl

/-- C5 amended: when loading the AI denoiser fails, the exception is
caught (a warning is printed) and startup continues with the remaining
processors — Bypass, plus the classical filters when enabled; no abort
(`Except.error`) is possible from the processor-initialisation block. -/
theorem ai_load_failure_continues (enable_classical : Bool) :
    initProcessors true none enable_classical =
      Except.ok ([ProcName.bypass] ++
        if enable_classical then [ProcName.classical] else []) := by
  cases enable_classical <;> rfl

/-- C6: for the bounded frame queue of capacity `cap` (python
`queue.Queue(maxsize=cap)` with `maxsize > 0`), the callback's non-blocking
enqueue never exceeds the capacity no matter how many frames are offered
in succession, and enqueueing onto a full queue rejects (drops) the newly
offered frame. -/
theorem queue_capacity_never_exceeded (cap : ℕ) (q full : BQueue)
    (x : AudioFrame) (offers : List AudioFrame) (_hcap : 0 < cap)
    (hq : q.length ≤ cap) (hfull : full.length = cap) :
    (offers.foldl (enqueueDrop cap) q).length ≤ cap ∧
    enqueueDrop cap full x = full := by
  refine ⟨foldl_enqueueDrop_length_le offers q hq, ?_⟩
  unfold enqueueDrop
  rw [if_neg (by simp [hfull])]

/-- Witness for C6: capacity 5, empty initial queue, nine offered frames;
a full 5-element queue rejects a newly offered frame. -/
theorem queue_capacity_never_exceeded_witness :
    ((List.replicate 9 [(1:ℚ)]).foldl (enqueueDrop 5) []).length ≤ 5 ∧
    enqueueDrop 5 (List.replicate 5 [(0:ℚ)]) [(1:ℚ)] =
      List.replicate 5 [(0:ℚ)] :=
  queue_capacity_never_exceeded 5 [] (List.replicate 5 [(0:ℚ)]) [(1:ℚ)]
    (List.replicate 9 [(1:ℚ)]) (by norm_num) (by simp) (by simp)

/-- C7: `BypassProcessor.process` returns its input frame exactly (it is a
pure function of the frame; no sample is modified). -/
theorem bypass_process_identity (audio : AudioFrame) :
    BypassProcessor.process audio = audio := rfl

/-- C10: starting from an index that is in range for the processors list,
every number of toggles `(idx + 1) % len` keeps the active index in
`[0, len)`, so the `processors[self.current_idx]` lookups of the receive
and stats threads never index out of range. -/
theorem toggle_index_stays_in_range (processors : List ProcessFn)
    (idx k : ℕ) (h : idx < processors.length) :
    (toggle processors.length)^[k] idx < processors.length ∧
    processors.get? ((toggle processors.length)^[k] idx) ≠ none := by
  have hn : 0 < processors.length := lt_of_le_of_lt (Nat.zero_le idx) h
  have key : (toggle processors.length)^[k] idx < processors.length := by
    induction k with
    | zero => simpa using h
    | succ k ih =>
        rw [Function.iterate_succ_apply']
        exact Nat.mod_lt _ hn
  refine ⟨key, ?_⟩
  rw [List.get?_eq_get key]
  simp

/-- Witness for C10: two processors, initial index 0, three toggles. -/
theorem toggle_index_stays_in_range_witness :
    (toggle 2)^[3] 0 < 2 ∧
    ([fun x => some x, fun _ => none] : List ProcessFn).get?
      ((toggle 2)^[3] 0) ≠ none :=
  toggle_index_stays_in_range [fun x => some x, fun _ => none] 0 3
    (by norm_num)

/-- C2 as stated is false on both sides: with the identity resampler, an
encoder that reports the absolute int16 PCM values, and the processor
`map (· + 1)`, the code's send iteration transmits the unprocessed frame
(packet `[0]`), not the spec's processed one (packet `[32767]`); and the
code's receive iteration with active index 1 enqueues the processed frame
`[1]`, while the spec's receive pipeline (no Processor stage) would
enqueue `[0]`. -/
theorem pipeline_order_counterexample :
    send_iteration (fun x => x) (fun pcm => some (pcm.map Int.natAbs)) true
        [(0:ℚ)] ≠
      spec_send_iteration (fun x => x) (fun x => x.map (fun s => s + 1))
        (fun pcm => some (pcm.map Int.natAbs)) true [(0:ℚ)] ∧
    recv_iteration 5 (fun x => x)
        [fun x => some x, fun x => some (x.map (fun s => s + 1))] 1
        [(0:ℚ)] [] ≠
      spec_recv_iteration 5 (fun x => x) [(0:ℚ)] [] := by
  have hdown : downsample_48k_to_16k (fun x => x) [(0:ℚ)] = [(0:ℚ)] := by
    norm_num [downsample_48k_to_16k, peakAbs]
  constructor
  · have h1 : send_iteration (fun x => x)
        (fun pcm => some (pcm.map Int.natAbs)) true [(0:ℚ)] =
        ([[0]], true) := by
      norm_num [send_iteration, AudioComm.send, OpusCodec.encode, hdown,
        pcm16, truncQ, toInt16]
    have h2 : spec_send_iteration (fun x => x)
        (fun x => x.map (fun s => s + 1))
        (fun pcm => some (pcm.map Int.natAbs)) true [(0:ℚ)] =
        ([[32767]], true) := by
      norm_num [spec_send_iteration, AudioComm.send, OpusCodec.encode,
        hdown, pcm16, truncQ, toInt16]
    rw [h1, h2]
    simp
  · have h3 : recv_iteration 5 (fun x => x)
        [fun x => some x, fun x => some (x.map (fun s => s + 1))] 1
        [(0:ℚ)] [] = ([[(1:ℚ)]], true) := by
      norm_num [recv_iteration, upsample_16k_to_48k, enqueueDrop]
    have h4 : spec_recv_iteration 5 (fun x => x) [(0:ℚ)] [] =
        ([[(0:ℚ)]], true) := by
      norm_num [spec_recv_iteration, upsample_16k_to_48k, enqueueDrop]
    rw [h3, h4]
    simp

/-- C2 amended: the send pipeline applies dequeue, downsample, codec
encode and transport send with no Processor stage (the processor call is
commented out in the source); the receive pipeline applies receive,
decode, then — when the active index is positive and in range and the
processor returns — the selected Processor's `process`, then upsample and
enqueue; with active index 0 the received frame is upsampled and enqueued
unprocessed. -/
theorem pipeline_order_amended (rp rp3 : AudioFrame → AudioFrame)
    (enc : List ℤ → Option Packet)
    (audio_48k received audio_16k : AudioFrame) (cap idx : ℕ)
    (processors : List ProcessFn) (p : ProcessFn) (q : BQueue)
    (hidx : 0 < idx) (hp : processors.get? idx = some p)
    (hproc : p received = some audio_16k) :
    send_iteration rp enc true audio_48k =
      ([OpusCodec.encode enc (downsample_48k_to_16k rp audio_48k)], true) ∧
    recv_iteration cap rp3 processors 0 received q =
      (enqueueDrop cap q (upsample_16k_to_48k rp3 received), true) ∧
    recv_iteration cap rp3 processors idx received q =
      (enqueueDrop cap q (upsample_16k_to_48k rp3 audio_16k), true) := by
  refine ⟨rfl, rfl, ?_⟩
  simp only [recv_iteration, if_pos hidx, hp, hproc]

/-- Witness for the amended C2 at concrete frames, resamplers, encoder and
processor list. -/
theorem pipeline_order_amended_witness :
    send_iteration (fun x => x) (fun _ => some [5]) true [(0:ℚ)] =
      ([OpusCodec.encode (fun _ => some [5])
          (downsample_48k_to_16k (fun x => x) [(0:ℚ)])], true) ∧
    recv_iteration 5 (fun x => x)
        [fun x => some x, fun _ => some [(1:ℚ)]] 0 [(0:ℚ)] [] =
      (enqueueDrop 5 [] (upsample_16k_to_48k (fun x => x) [(0:ℚ)]), true) ∧
    recv_iteration 5 (fun x => x)
        [fun x => some x, fun _ => some [(1:ℚ)]] 1 [(0:ℚ)] [] =
      (enqueueDrop 5 [] (upsample_16k_to_48k (fun x => x) [(1:ℚ)]), true) :=
  pipeline_order_amended (fun x => x) (fun x => x) (fun _ => some [5])
    [(0:ℚ)] [(0:ℚ)] [(1:ℚ)] 5 1
    [fun x => some x, fun _ => some [(1:ℚ)]] (fun _ => some [(1:ℚ)]) []
    (by norm_num) rfl rfl

/-- C4 as stated is false: with the processor at index 1 raising, one
receive iteration leaves the playback queue empty — the frame's
unprocessed input (which upsamples to `[1/2]` here) is not emitted
downstream; it is dropped. -/
theorem processor_fault_counterexample :
    (recv_iteration 5 (fun x => x) [fun x => some x, fun _ => none] 1
      [(1:ℚ)/2] []).1 = ([] : BQueue) ∧
    upsample_16k_to_48k (fun x => x) [(1:ℚ)/2] = [(1:ℚ)/2] ∧
    ([] : BQueue) ≠ [[(1:ℚ)/2]] :=
  ⟨rfl, rfl, by simp⟩

/-- C4 amended: if the selected processor's `process` raises for a frame,
the worker thread's `except Exception` handler catches it: the frame is
dropped — nothing is emitted downstream, the playback queue is unchanged —
and the iteration returns normally, so the thread keeps running. -/
theorem processor_fault_drops_frame (cap : ℕ)
    (rp3 : AudioFrame → AudioFrame) (processors : List ProcessFn)
    (idx : ℕ) (p : ProcessFn) (received : AudioFrame) (q : BQueue)
    (hidx : 0 < idx) (hp : processors.get? idx = some p)
    (hfail : p received = none) :
    recv_iteration cap rp3 processors idx received q = (q, false) := by
  simp only [recv_iteration, if_pos hidx, hp, hfail]

/-- Witness for the amended C4: a failing processor at index 1 leaves a
concrete queue unchanged. -/
theorem processor_fault_drops_frame_witness :
    recv_iteration 5 (fun x => x) [fun x => some x, fun _ => none] 1
      [(1:ℚ)/2] [[(3:ℚ)]] = ([[(3:ℚ)]], false) :=
  processor_fault_drops_frame 5 (fun x => x)
    [fun x => some x, fun _ => none] 1 (fun _ => none) [(1:ℚ)/2] [[(3:ℚ)]]
    (by norm_num) rfl rfl

/-- C8 as stated is false for the downsampler: on a 4-sample input the
scipy polyphase resampler produces `ceil(4/3) = 2` samples (and the
embedded `downsample_48k_to_16k` therefore returns a 2-sample frame),
while the spec's formula `round(n * 16000/48000)` gives 1. -/
theorem resampler_length_counterexample :
    (downsample_48k_to_16k
      (fun x => List.replicate (resamplePolyLen x.length 1 3) 0)
      [(0:ℚ), 0, 0, 0]).length = 2 ∧
    pythonRound ((4 : ℚ) * (16000 / 48000)) = 1 ∧
    (2 : ℕ) ≠ 1 := by
  refine ⟨?_, ?_, by norm_num⟩
  · norm_num [downsample_48k_to_16k, peakAbs, resamplePolyLen]
  · norm_num [pythonRound]

/-- C8 amended: the resampler output length is `ceil(n * ratio)`, as scipy
computes it: the downsampler returns `⌈n/3⌉ = (n+2)/3` samples (one more
than `round(n/3)` when `n ≡ 1 mod 3`) and the upsampler returns exactly
`3·n` samples, which does equal `round(n · 3)`; output length differs from
a nominal frame size only by this rounding. -/
theorem resampler_length_amended (rp rp3 : AudioFrame → AudioFrame)
    (x y : AudioFrame)
    (hrp : (rp x).length = resamplePolyLen x.length 1 3)
    (hrp3 : (rp3 y).length = resamplePolyLen y.length 3 1) :
    (downsample_48k_to_16k rp x).length = (x.length + 2) / 3 ∧
    (upsample_16k_to_48k rp3 y).length = 3 * y.length ∧
    pythonRound ((y.length : ℚ) * 3) = 3 * (y.length : ℤ) := by
  refine ⟨?_, ?_, ?_⟩
  · have hd : (downsample_48k_to_16k rp x).length = (rp x).length := by
      simp only [downsample_48k_to_16k]
      split
      · simp
      · rfl
    rw [hd, hrp]
    show (x.length * 1 + 3 - 1) / 3 = (x.length + 2) / 3
    congr 1
    omega
  · rw [upsample_16k_to_48k, hrp3]
    show (y.length * 3 + 1 - 1) / 1 = 3 * y.length
    simp [Nat.mul_comm]
  · have hcast : ((y.length : ℚ) * 3) = ((3 * y.length : ℤ) : ℚ) := by
      push_cast
      ring
    rw [hcast, pythonRound_intCast]

/-- Witness for the amended C8: a 3-sample downsampler input, a 1-sample
upsampler input, and the concrete resamplers realising scipy's length. -/
theorem resampler_length_amended_witness :
    (downsample_48k_to_16k
      (fun x => List.replicate (resamplePolyLen x.length 1 3) 0)
      [(0:ℚ), 0, 0]).length = ([(0:ℚ), 0, 0].length + 2) / 3 ∧
    (upsample_16k_to_48k
      (fun y => List.replicate (resamplePolyLen y.length 3 1) 0)
      [(0:ℚ)]).length = 3 * [(0:ℚ)].length ∧
    pythonRound (([(0:ℚ)].length : ℚ) * 3) = 3 * ([(0:ℚ)].length : ℤ) :=
  resampler_length_amended
    (fun x => List.replicate (resamplePolyLen x.length 1 3) 0)
    (fun y => List.replicate (resamplePolyLen y.length 3 1) 0)
    [(0:ℚ), 0, 0] [(0:ℚ)] (by simp) (by simp)

/-- C9: every sample returned by `AIDenoiserProcessor.process` lies in
[-1, 1]: when the raw network output's peak exceeds 1 it is renormalized
and clipped into [-1, 1], otherwise it is already peak-bounded by 1, and
the input-level restoration multiplies by `min(input_peak · 1.05, 1)`,
a factor in [0, 1], so no emitted sample can leave full scale. -/
theorem ai_denoiser_output_in_range (net : AudioFrame → AudioFrame)
    (audio : AudioFrame) (y : ℚ)
    (hy : y ∈ AIDenoiserProcessor.process net audio) :
    -1 ≤ y ∧ y ≤ 1 := by
  have hy' : y ∈ restoreLevel (peakAbs audio)
      (normalizeOutput (net (normalizeInput audio))) := hy
  have h1 : ∀ w ∈ normalizeOutput (net (normalizeInput audio)), |w| ≤ 1 :=
    fun w hw => mem_normalizeOutput_abs_le_one hw
  exact abs_le.mp
    (mem_restoreLevel_abs_le_one (peakAbs_nonneg audio) h1 hy')

/-- Witness for C9: the full-scale frame `[1]` with a network returning
`[0]` yields the sample `0`, which the theorem places in [-1, 1]. -/
theorem ai_denoiser_output_in_range_witness :
    -1 ≤ (0:ℚ) ∧ (0:ℚ) ≤ 1 :=
  ai_denoiser_output_in_range (fun _ => [0]) [(1:ℚ)] 0 (by
    norm_num [AIDenoiserProcessor.process, restoreLevel, normalizeOutput,
      normalizeInput, peakAbs])

end Duplex
